import Mathlib

/-!
Formal model of the ClientManagementSystem record store (src/app.py).

The app keeps four tabular collections (clients, orders, payments, costs)
in a workbook, with id generation, a fee calculator, cascade deletes,
in-place status updates, calendar day coloring, a month-over-month profit
change and a storage adapter.  Each definition below is a direct
translation of the corresponding Python code; the theorems check the
behavior the specification ascribes to it.  Monetary and numeric cell
values are modelled as rationals, ids as integers, text cells as strings.
-/

namespace CMS

/-- A row of the clients sheet. -/
structure Client where
  client_id : Int
  full_name : String
  phone : String
  email : String
  address : String
  notes : String
  deriving DecidableEq, Inhabited

/-- A row of the orders sheet. -/
structure Order where
  order_id : Int
  client_id : Int
  service_type : String
  weight_count : ℚ
  pickup_date : String
  due_date : String
  status : String
  special_instructions : String
  delivery_fee : ℚ
  total_fee : ℚ
  deriving DecidableEq, Inhabited

/-- A row of the payments sheet. -/
structure Payment where
  payment_id : Int
  order_id : Int
  amount_paid : ℚ
  payment_date : String
  payment_method : String
  payment_status : String
  notes : String
  deriving DecidableEq, Inhabited

/-- A row of the costs sheet. -/
structure Cost where
  expense_id : Int
  date_incurred : String
  category : String
  description : String
  amount : ℚ
  fixed_variable : String
  notes : String
  deriving DecidableEq, Inhabited

/-- The in-memory contents of the four collections. -/
structure Store where
  clients : List Client
  orders : List Order
  payments : List Payment
  costs : List Cost
  deriving DecidableEq, Inhabited

/-! ## Fee calculator (src/app.py, calculate_fee) -/

/-- The rates dictionary of calculate_fee, in its insertion order. -/
def rates : List (String × ℚ) :=
  [("WDF", 500), ("WDI", 700), ("Iron Only", 200), ("Bedding", 1200)]

/-- The rate lookup inside calculate_fee: the first table entry whose key
is a prefix of the service string, with default 500. -/
def rate_of (service : String) : ℚ :=
  match rates.find? (fun kv => service.startsWith kv.1) with
  | some kv => kv.2
  | none => 500

/-- calculate_fee from src/app.py: rate * weight + delivery, where an
absent weight or delivery fee reads as 0 (Python `weight or 0`). -/
def calculate_fee (service : String) (weight delivery : Option ℚ) : ℚ :=
  rate_of service * weight.getD 0 + delivery.getD 0

/-- The rate table as the specification words it: prefix cases in the
stated order, default rate 500 when no prefix matches. -/
def claim_rate (s : String) : ℚ :=
  if s.startsWith "WDF" then 500
  else if s.startsWith "WDI" then 700
  else if s.startsWith "Iron Only" then 200
  else if s.startsWith "Bedding" then 1200
  else 500

theorem rate_of_eq_claim_rate (s : String) : rate_of s = claim_rate s := by
  unfold rate_of claim_rate rates
  cases h1 : s.startsWith "WDF" <;> cases h2 : s.startsWith "WDI" <;>
    cases h3 : s.startsWith "Iron Only" <;> cases h4 : s.startsWith "Bedding" <;>
      simp [List.find?, h1, h2, h3, h4]

/-! ## Id generation (src/app.py, next_id) -/

/-- Truncation of a rational toward zero, as Python int() coerces. -/
def int_of (q : ℚ) : Int := if 0 ≤ q then q.floor else q.ceil

/-- next_id from src/app.py, applied to the id column of a sheet: 1 when
the sheet is empty, otherwise the column maximum coerced to an integer,
plus 1. -/
def next_id (ids : List ℚ) : Int :=
  match ids with
  | [] => 1
  | x :: xs => int_of (xs.foldl max x) + 1

theorem foldl_max_mem (xs : List ℚ) : ∀ x, xs.foldl max x ∈ x :: xs := by
  induction xs with
  | nil => intro x; simp
  | cons y ys ih =>
    intro x
    rw [List.foldl_cons]
    rcases List.mem_cons.mp (ih (max x y)) with h1 | h1
    · rcases max_choice x y with h2 | h2
      · rw [h1, h2]; exact List.mem_cons_self _ _
      · rw [h1, h2]; exact List.mem_cons.mpr (Or.inr (List.mem_cons_self _ _))
    · exact List.mem_cons.mpr (Or.inr (List.mem_cons.mpr (Or.inr h1)))

theorem self_le_foldl_max (xs : List ℚ) (x : ℚ) : x ≤ xs.foldl max x := by
  induction xs generalizing x with
  | nil => simp
  | cons y ys ih =>
    rw [List.foldl_cons]
    exact le_trans (le_max_left x y) (ih (max x y))

theorem le_foldl_max (xs : List ℚ) : ∀ x a, a ∈ x :: xs → a ≤ xs.foldl max x := by
  induction xs with
  | nil => intro x a ha; simp at ha; simp [ha]
  | cons y ys ih =>
    intro x a ha
    rw [List.foldl_cons]
    rcases List.mem_cons.mp ha with h1 | h1
    · subst h1; exact le_trans (le_max_left a y) (self_le_foldl_max ys (max a y))
    · rcases List.mem_cons.mp h1 with h2 | h2
      · subst h2; exact le_trans (le_max_right x a) (self_le_foldl_max ys (max x a))
      · exact ih (max x y) a (List.mem_cons.mpr (Or.inr h2))

/-- C2: for every service string s and weights w ≥ 0, delivery d ≥ 0,
calculate_fee(s, w, d) = rate(s) * w + d where rate is given by prefix
match against WDF→500, WDI→700, Iron Only→200, Bedding→1200, default 500;
an absent weight or delivery is treated as 0. -/
theorem calculate_fee_claim (s : String) (w d : ℚ) (hw : 0 ≤ w) (hd : 0 ≤ d) :
    calculate_fee s (some w) (some d) = claim_rate s * w + d ∧
    calculate_fee s none none = claim_rate s * 0 + 0 := by
  refine ⟨?_, ?_⟩ <;> simp [calculate_fee, rate_of_eq_claim_rate]

theorem calculate_fee_claim_witness :
    (0 : ℚ) ≤ 10 ∧ (0 : ℚ) ≤ 250 ∧
      calculate_fee "WDF (Wash, Dry, Fold)" (some 10) (some 250) =
        claim_rate "WDF (Wash, Dry, Fold)" * 10 + 250 :=
  ⟨by norm_num, by norm_num,
    (calculate_fee_claim "WDF (Wash, Dry, Fold)" 10 250 (by norm_num) (by norm_num)).1⟩

/-- C3: next_id returns 1 on an empty id column and max + 1 otherwise
(ids 1, 3, 5 give 6), coercing a non-integer maximum to an integer. -/
theorem next_id_claim :
    next_id [] = 1 ∧
    (∀ ids m, m ∈ ids → (∀ a ∈ ids, a ≤ m) → next_id ids = int_of m + 1) ∧
    (∀ n : ℤ, int_of (n : ℚ) = n) ∧
    next_id [1, 3, 5] = 6 ∧
    next_id [1, mkRat 5 2] = 3 := by
  refine ⟨rfl, ?_, ?_, ?_, ?_⟩
  · intro ids m hm hub
    cases ids with
    | nil => cases hm
    | cons x xs =>
      have h1 : xs.foldl max x ≤ m := hub _ (foldl_max_mem xs x)
      have h2 : m ≤ xs.foldl max x := le_foldl_max xs x m hm
      rw [next_id, le_antisymm h1 h2]
  · intro n; unfold int_of Rat.floor Rat.ceil; split <;> simp
  · decide
  · decide

theorem next_id_claim_witness :
    (3 : ℚ) ∈ [(1 : ℚ), 3] ∧ (∀ a ∈ [(1 : ℚ), 3], a ≤ 3) ∧
      next_id [1, 3] = int_of 3 + 1 :=
  ⟨by decide, by decide, next_id_claim.2.1 [1, 3] 3 (by decide) (by decide)⟩

/-! ## Record store operations (src/app.py page handlers) -/

/-- The Clients page delete-client handler (src/app.py, Clients page):
filter the client row out of clients and save; if the orders sheet is
nonempty, filter the client's orders out and save orders; if moreover
payments and the removed orders are both nonempty, filter out the
payments whose order_id is among the removed orders and save payments.
The second component logs which sheets were saved, in save order. -/
def delete_client (st : Store) (cid : Int) : Store × List String :=
  let clients := st.clients.filter (fun c => c.client_id != cid)
  if st.orders.isEmpty then
    ({ st with clients := clients }, ["clients"])
  else
    let client_orders := st.orders.filter (fun o => o.client_id == cid)
    let orders := st.orders.filter (fun o => o.client_id != cid)
    if !st.payments.isEmpty && !client_orders.isEmpty then
      let payments := st.payments.filter
        (fun p => !(client_orders.map Order.order_id).contains p.order_id)
      ({ st with clients := clients, orders := orders, payments := payments },
        ["clients", "orders", "payments"])
    else
      ({ st with clients := clients, orders := orders }, ["clients", "orders"])

/-- The Orders page delete-order handler (src/app.py, Orders page):
filter the order row out of orders and save, then filter the payments
with that order_id out of payments and save. -/
def delete_order (st : Store) (oid : Int) : Store :=
  let orders := st.orders.filter (fun o => o.order_id != oid)
  let payments := st.payments.filter (fun p => p.order_id != oid)
  { st with orders := orders, payments := payments }

/-- The Orders page update-status assignment (src/app.py, Orders page):
`orders.loc[orders["order_id"] == selected_order_id, "status"] = new_status`. -/
def update_order_status (orders : List Order) (oid : Int) (ns : String) : List Order :=
  orders.map (fun o => if o.order_id == oid then { o with status := ns } else o)

/-- The four options the status selectbox offers (src/app.py, Orders page). -/
def status_options : List String :=
  ["Scheduled Pickup", "Processing", "Ready", "Completed"]

/-- The Orders page update-status handler as a whole: the new status is
chosen from the selectbox over status_options and written through
update_order_status. -/
def update_status_handler (orders : List Order) (oid : Int)
    (choice : Fin status_options.length) : List Order :=
  update_order_status orders oid (status_options.get choice)

/-- C4: deleting an order removes that order row and every payment row
with its order_id, and nothing else: other orders (in particular sibling
orders of the same client), other payments, clients and costs are kept. -/
theorem delete_order_claim (st : Store) (oid : Int) :
    (∀ o, o ∈ (delete_order st oid).orders ↔ o ∈ st.orders ∧ o.order_id ≠ oid) ∧
    (∀ p, p ∈ (delete_order st oid).payments ↔ p ∈ st.payments ∧ p.order_id ≠ oid) ∧
    (delete_order st oid).clients = st.clients ∧
    (delete_order st oid).costs = st.costs := by
  refine ⟨?_, ?_, rfl, rfl⟩ <;> intro r <;>
    simp [delete_order, List.mem_filter]

/-- C1: deleting client C removes C's client row, every order row whose
client_id is C's id, and every payment row whose order_id is among those
removed orders (full two-level cascade); every row not referencing C or
its orders, and the costs sheet, are untouched. -/
theorem delete_client_claim (st : Store) (cid : Int) :
    (∀ c, c ∈ (delete_client st cid).1.clients ↔ c ∈ st.clients ∧ c.client_id ≠ cid) ∧
    (∀ o, o ∈ (delete_client st cid).1.orders ↔ o ∈ st.orders ∧ o.client_id ≠ cid) ∧
    (∀ p, p ∈ (delete_client st cid).1.payments ↔
      p ∈ st.payments ∧ ∀ o ∈ st.orders, o.client_id = cid → p.order_id ≠ o.order_id) ∧
    (delete_client st cid).1.costs = st.costs := by
  by_cases h1 : st.orders.isEmpty
  · have he : st.orders = [] := List.isEmpty_iff.mp h1
    refine ⟨?_, ?_, ?_, ?_⟩ <;>
      simp [delete_client, h1, he, List.mem_filter]
  · by_cases h2 : st.payments.isEmpty
    · have hp : st.payments = [] := List.isEmpty_iff.mp h2
      refine ⟨?_, ?_, ?_, ?_⟩ <;>
        simp [delete_client, h1, h2, hp, List.mem_filter]
    · by_cases h3 : (st.orders.filter (fun o => o.client_id == cid)).isEmpty
      · have hco : ∀ o ∈ st.orders, ¬(o.client_id = cid) := by
          intro o ho
          have := List.filter_eq_nil_iff.mp (List.isEmpty_iff.mp h3) o ho
          simpa using this
        refine ⟨?_, ?_, ?_, ?_⟩ <;>
          simp [delete_client, h1, h2, h3, List.mem_filter]
        intro p hp o ho hoc
        exact absurd hoc (hco o ho)
      · refine ⟨?_, ?_, ?_, ?_⟩ <;>
          simp [delete_client, h1, h2, h3, List.mem_filter, List.mem_map]
        intro p _hp
        constructor
        · intro h o ho hoc hpo
          exact h o ho hoc hpo.symm
        · intro h o ho hoc hpo
          exact h o ho hoc hpo.symm

theorem update_order_status_getD (orders : List Order) (oid : Int) (ns : String)
    (i : Nat) (hi : i < orders.length) :
    (update_order_status orders oid ns).getD i default =
      (if (orders.getD i default).order_id == oid
        then { orders.getD i default with status := ns }
        else orders.getD i default) := by
  have h1 : orders[i]? = some orders[i] := List.getElem?_eq_getElem hi
  have h2 : orders.getD i default = orders[i] := by
    rw [List.getD_eq_getElem?_getD, h1]; rfl
  rw [update_order_status, List.getD_eq_getElem?_getD, List.getElem?_map, h1, h2]
  rfl

/-- C6: update_order_status changes only the status field of the rows
whose order_id matches: every other field of every row, every field of
the non-matching rows, and the row count are unchanged; in particular
total_fee is never touched by the status update. -/
theorem update_order_status_claim (orders : List Order) (oid : Int) (ns : String) :
    (update_order_status orders oid ns).length = orders.length ∧
    ∀ i, i < orders.length →
      (let o := orders.getD i default
       let o2 := (update_order_status orders oid ns).getD i default
       o2.order_id = o.order_id ∧ o2.client_id = o.client_id ∧
       o2.service_type = o.service_type ∧ o2.weight_count = o.weight_count ∧
       o2.pickup_date = o.pickup_date ∧ o2.due_date = o.due_date ∧
       o2.special_instructions = o.special_instructions ∧
       o2.delivery_fee = o.delivery_fee ∧ o2.total_fee = o.total_fee ∧
       (o.order_id ≠ oid → o2.status = o.status) ∧
       (o.order_id = oid → o2.status = ns)) := by
  refine ⟨List.length_map _ _, ?_⟩
  intro i hi
  have hgd := update_order_status_getD orders oid ns i hi
  simp only [hgd]
  by_cases hid : (orders.getD i default).order_id = oid <;>
    simp only [List.getD_eq_getElem?_getD] at hid <;> simp [hid]

/-- Demo orders sheet used by the concrete witnesses. -/
def demo_orders : List Order :=
  [⟨1, 1, "WDF (Wash, Dry, Fold)", 10, "2025-01-01", "2025-01-03", "Ready", "", 250, 5250⟩,
   ⟨2, 1, "Bedding", 2, "2025-01-01", "2025-01-05", "Processing", "", 0, 2400⟩]

theorem update_order_status_claim_witness :
    0 < demo_orders.length ∧
      ((update_order_status demo_orders 1 "Processing").getD 0 default).total_fee
        = (demo_orders.getD 0 default).total_fee :=
  ⟨by decide,
    ((update_order_status_claim demo_orders 1 "Processing").2 0
      (by decide)).2.2.2.2.2.2.2.2.1⟩

/-- C7 counterexample: the status update stores an unrecognized value
verbatim: updating demo_orders order 1 (status "Ready") to "Bogus" leaves
"Bogus" — not a canonical value and not the old value — in the row, so
the store neither rejects nor normalizes it. -/
theorem update_status_counterexample :
    ((update_order_status demo_orders 1 "Bogus").getD 0 default).status = "Bogus" ∧
    "Bogus" ∉ status_options ∧
    (demo_orders.getD 0 default).status ≠ "Bogus" := by
  refine ⟨?_, by decide, by decide⟩
  decide

/-- C7 amended: update_order_status performs no validation and writes the
given newStatus verbatim into every matching row; unrecognized values
never arise through the Orders page because the status selectbox only
offers the four canonical values, so every row the page handler produces
has a canonical status or is an untouched original row. -/
theorem update_status_amended_claim (orders : List Order) (oid : Int)
    (choice : Fin status_options.length) :
    (∀ o ∈ update_status_handler orders oid choice,
        o.status ∈ status_options ∨ o ∈ orders) ∧
    (∀ ns, ∀ i, i < orders.length → (orders.getD i default).order_id = oid →
        ((update_order_status orders oid ns).getD i default).status = ns) := by
  constructor
  · intro o ho
    rcases List.mem_map.mp (by simpa [update_status_handler, update_order_status] using ho)
      with ⟨a, ha, hfa⟩
    by_cases hid : a.order_id = oid
    · left
      rw [← hfa]
      simp only [hid, beq_self_eq_true, if_true]
      apply List.getElem_mem
    · right
      rw [← hfa]
      simp [hid]
      exact ha
  · intro ns i hi hidm
    rw [update_order_status_getD orders oid ns i hi]
    simp only [List.getD_eq_getElem?_getD] at hidm
    simp [hidm]

theorem update_status_amended_claim_witness :
    0 < demo_orders.length ∧ (demo_orders.getD 0 default).order_id = 1 ∧
      ((update_order_status demo_orders 1 "Completed").getD 0 default).status
        = "Completed" :=
  ⟨by decide, by decide,
    (update_status_amended_claim demo_orders 1 ⟨0, by decide⟩).2 "Completed" 0
      (by decide) (by decide)⟩

/-- C10: when the orders sheet is empty, deleting a client writes back
only the clients sheet: the orders and payments sheets are not saved,
every payment row already present (orphans included) survives unchanged,
and only the client row is removed. -/
theorem delete_client_empty_orders_claim (st : Store) (cid : Int)
    (h : st.orders = []) :
    (delete_client st cid).1.payments = st.payments ∧
    (delete_client st cid).1.orders = st.orders ∧
    (delete_client st cid).2 = ["clients"] ∧
    (∀ c, c ∈ (delete_client st cid).1.clients ↔ c ∈ st.clients ∧ c.client_id ≠ cid) ∧
    (delete_client st cid).1.costs = st.costs := by
  have h1 : st.orders.isEmpty := by simp [h]
  refine ⟨?_, ?_, ?_, ?_, ?_⟩ <;> simp [delete_client, h1, List.mem_filter]

/-- Demo store with no orders and an orphan payment (its order_id 99
references no order), used by the concrete witnesses. -/
def orphan_store : Store :=
  ⟨[⟨1, "Ama", "677000000", "ama@mail.com", "Bonaberi", ""⟩], [],
   [⟨7, 99, 2000, "2025-01-02", "Cash", "Partial", ""⟩], []⟩

theorem delete_client_empty_orders_claim_witness :
    orphan_store.orders = [] ∧
      (delete_client orphan_store 1).1.payments = orphan_store.payments ∧
      (delete_client orphan_store 1).1.orders = orphan_store.orders ∧
      (delete_client orphan_store 1).2 = ["clients"] :=
  ⟨rfl, (delete_client_empty_orders_claim orphan_store 1 rfl).1,
    (delete_client_empty_orders_claim orphan_store 1 rfl).2.1,
    (delete_client_empty_orders_claim orphan_store 1 rfl).2.2.1⟩

theorem delete_client_claim_witness :
    (delete_client orphan_store 1).1.costs = orphan_store.costs :=
  (delete_client_claim orphan_store 1).2.2.2

theorem delete_order_claim_witness :
    (delete_order orphan_store 99).clients = orphan_store.clients :=
  (delete_order_claim orphan_store 99).2.2.1

/-! ## Calendar day coloring (src/app.py, Calendar page) -/

/-- The Calendar page day-color logic for the orders due on one date:
gray when no orders; green when all are Completed; yellow when any order
is Scheduled Pickup or Processing; red when the date is past and any
order is not Completed; blue otherwise.  is_past models this_date < today. -/
def day_color (day_orders : List Order) (is_past : Bool) : String :=
  if !day_orders.isEmpty then
    if day_orders.all (fun o => o.status == "Completed") then "#4caf50"
    else if day_orders.any
        (fun o => o.status == "Scheduled Pickup" || o.status == "Processing") then "#ffeb3b"
    else if is_past && day_orders.any (fun o => o.status != "Completed") then "#f44336"
    else "#90caf9"
  else "#eceff1"

/-- C5: the day color follows the strict branch order: no orders →
neutral; all Completed → done; any Scheduled Pickup/Processing →
in-progress (priority over the overdue check); else a past date with an
incomplete order → overdue (so a past date with only a "Ready" order
colors overdue); else scheduled/future. -/
theorem day_color_claim (l : List Order) (p : Bool) :
    (l = [] → day_color l p = "#eceff1") ∧
    (l ≠ [] → (∀ o ∈ l, o.status = "Completed") → day_color l p = "#4caf50") ∧
    ((∃ o ∈ l, o.status = "Scheduled Pickup" ∨ o.status = "Processing") →
      day_color l p = "#ffeb3b") ∧
    (p = true → (∀ o ∈ l, o.status ≠ "Scheduled Pickup" ∧ o.status ≠ "Processing") →
      (∃ o ∈ l, o.status ≠ "Completed") → day_color l p = "#f44336") ∧
    (p = false → (∀ o ∈ l, o.status ≠ "Scheduled Pickup" ∧ o.status ≠ "Processing") →
      (∃ o ∈ l, o.status ≠ "Completed") → day_color l p = "#90caf9") := by
  refine ⟨?_, ?_, ?_, ?_, ?_⟩
  · intro h; subst h; rfl
  · intro hne hall
    have h1 : l.isEmpty = false := by simpa using hne
    have h2 : l.all (fun o => o.status == "Completed") = true :=
      List.all_eq_true.mpr fun o ho => by simpa using hall o ho
    simp [day_color, h1, h2]
  · rintro ⟨o, ho, hs⟩
    have h1 : l.isEmpty = false := by simpa using List.ne_nil_of_mem ho
    have h2 : l.all (fun o => o.status == "Completed") = false := by
      rcases hs with h | h <;>
        · refine List.all_eq_false.mpr ⟨o, ho, ?_⟩; simp [h]
    have h3 : l.any
        (fun o => o.status == "Scheduled Pickup" || o.status == "Processing") = true :=
      List.any_eq_true.mpr ⟨o, ho, by rcases hs with h | h <;> simp [h]⟩
    simp [day_color, h1, h2, h3]
  · rintro hp hnone ⟨o, ho, hs⟩
    have h1 : l.isEmpty = false := by simpa using List.ne_nil_of_mem ho
    have h2 : l.all (fun o => o.status == "Completed") = false :=
      List.all_eq_false.mpr ⟨o, ho, by simp [hs]⟩
    have h3 : l.any
        (fun o => o.status == "Scheduled Pickup" || o.status == "Processing") = false := by
      refine List.any_eq_false.mpr fun a ha => ?_
      have := hnone a ha
      simp [this.1, this.2]
    have h4 : l.any (fun o => o.status != "Completed") = true :=
      List.any_eq_true.mpr ⟨o, ho, by simp [hs]⟩
    simp [day_color, h1, h2, h3, h4, hp]
  · rintro hp hnone ⟨o, ho, hs⟩
    have h1 : l.isEmpty = false := by simpa using List.ne_nil_of_mem ho
    have h2 : l.all (fun o => o.status == "Completed") = false :=
      List.all_eq_false.mpr ⟨o, ho, by simp [hs]⟩
    have h3 : l.any
        (fun o => o.status == "Scheduled Pickup" || o.status == "Processing") = false := by
      refine List.any_eq_false.mpr fun a ha => ?_
      have := hnone a ha
      simp [this.1, this.2]
    simp [day_color, h1, h2, h3, hp]

theorem day_color_claim_witness :
    day_color [⟨3, 1, "Iron Only", 4, "2024-12-01", "2024-12-03", "Ready", "", 0, 800⟩]
      true = "#f44336" :=
  (day_color_claim
      [⟨3, 1, "Iron Only", 4, "2024-12-01", "2024-12-03", "Ready", "", 0, 800⟩]
      true).2.2.2.1 rfl (by decide) (by decide)

/-! ## Dashboard profit change (src/app.py, Dashboard page) -/

/-- The Dashboard month-over-month profit change over the chronologically
ordered monthly profit column: with at least two rows, the percent change
of the last row against the one before (iloc[-1] vs iloc[-2]), guarded to
0 when the prior profit is 0; with fewer than two rows, 0. -/
def profit_change (profits : List ℚ) : ℚ :=
  if 2 ≤ profits.length then
    if profits.getD (profits.length - 2) 0 ≠ 0 then
      (profits.getD (profits.length - 1) 0 - profits.getD (profits.length - 2) 0) /
        profits.getD (profits.length - 2) 0 * 100
    else 0
  else 0

theorem getD_append_two (ps : List ℚ) (a b : ℚ) :
    (ps ++ [a, b]).getD (ps.length + 1) 0 = b ∧ (ps ++ [a, b]).getD ps.length 0 = a := by
  constructor <;>
    rw [List.getD_eq_getElem?_getD, List.getElem?_append_right (by omega)] <;>
      simp

/-- C8: the month-over-month profit change is exactly 0 when there are
fewer than 2 months of data or the prior month profit is exactly 0, and
otherwise the percent change of the latest month against the prior one. -/
theorem profit_change_claim (profits : List ℚ) :
    (profits.length < 2 → profit_change profits = 0) ∧
    (∀ ps a b, profits = ps ++ [a, b] → a = 0 → profit_change profits = 0) ∧
    (∀ ps a b, profits = ps ++ [a, b] → a ≠ 0 →
      profit_change profits = (b - a) / a * 100) := by
  refine ⟨?_, ?_, ?_⟩
  · intro h
    rw [profit_change, if_neg (by omega)]
  · intro ps a b hpf ha
    subst hpf
    have hl : (ps ++ [a, b]).length = ps.length + 2 := by simp
    rw [profit_change, hl, if_pos (by omega),
      show ps.length + 2 - 2 = ps.length by omega, (getD_append_two ps a b).2,
      if_neg (by simp [ha])]
  · intro ps a b hpf ha
    subst hpf
    have hl : (ps ++ [a, b]).length = ps.length + 2 := by simp
    rw [profit_change, hl, if_pos (by omega),
      show ps.length + 2 - 1 = ps.length + 1 by omega,
      show ps.length + 2 - 2 = ps.length by omega,
      (getD_append_two ps a b).1, (getD_append_two ps a b).2, if_pos ha]

theorem profit_change_claim_witness :
    profit_change [100, 50] = ((50 : ℚ) - 100) / 100 * 100 :=
  (profit_change_claim [100, 50]).2.2 [] 100 50 rfl (by norm_num)

/-! ## Storage adapter (src/app.py, load_data / save_data) -/

/-- A persisted sheet: its column names and its rows of cell text. -/
structure Table where
  cols : List String
  rows : List (List String)
  deriving DecidableEq, Inhabited

/-- The empty table that load_data falls back to (pd.DataFrame()). -/
def empty_table : Table := ⟨[], []⟩

/-- The workbook file: a mapping from sheet names to sheets, none when
the sheet is missing or unreadable. -/
abbrev Workbook := String → Option Table

/-- save_data from src/app.py: rewrite the named sheet wholesale
(if_sheet_exists replace), leaving every other sheet as it is. -/
def save_data (wb : Workbook) (sheet : String) (df : Table) : Workbook :=
  fun s => if s = sheet then some df else wb s

/-- load_data from src/app.py: the persisted sheet, or the empty table
when the sheet is missing or unreadable (the except branch). -/
def load_data (wb : Workbook) (sheet : String) : Table :=
  (wb sheet).getD empty_table

/-- C9: saving a table and then loading that collection returns a table
equal to the one saved (same rows and same columns), and loading a
missing or unreadable collection returns the empty table instead of
raising an error. -/
theorem save_load_claim (wb : Workbook) (sheet : String) (df : Table) :
    load_data (save_data wb sheet df) sheet = df ∧
    (load_data (save_data wb sheet df) sheet).rows = df.rows ∧
    (load_data (save_data wb sheet df) sheet).cols = df.cols ∧
    (wb sheet = none → load_data wb sheet = empty_table) := by
  refine ⟨?_, ?_, ?_, ?_⟩ <;> simp [load_data, save_data]
  intro h
  rw [h]
  rfl

/-- The workbook with every sheet missing. -/
def empty_workbook : Workbook := fun _ => none

/-- A small concrete clients sheet used by the storage witness. -/
def demo_table : Table := ⟨["client_id", "full_name"], [["1", "Ama"]]⟩

theorem save_load_claim_witness :
    empty_workbook "clients" = none ∧
      load_data (save_data empty_workbook "clients" demo_table) "clients" = demo_table ∧
      load_data empty_workbook "clients" = empty_table :=
  ⟨rfl, (save_load_claim empty_workbook "clients" demo_table).1,
    (save_load_claim empty_workbook "clients" demo_table).2.2.2 rfl⟩

end CMS
